import Mathlib

/-!
Verification development for the IRVE data-cleaning pipeline
(`utils/prep.py`, `utils/io.py`, plus the `data.empty` guard in `app.py`).

The pandas table is modelled as a `List Row`, where a `Row` holds one
`Cell` per column the pipeline touches.  A `Cell` is the dynamic value of
one pandas cell: missing (`NaN`/`NaT`), a number (modelled as an exact
rational), a string, a boolean, or a parsed date.  Each pipeline stage of
`prep.py` becomes a map/filter over the row list; the per-row transforms
mirror the column expressions of the source line by line.

Python string primitives used by the source (`str.strip`, `str.lower`,
`str.upper`, `str.zfill`, `str[:2]`, `astype(str)`) are modelled on the
character list of a Lean `String`; the upper/lower-case maps model the
ASCII segment of Python case mapping.
-/

/-! ## Python string primitives -/

/-- Model of the ASCII part of Python `str.upper` on one character. -/
def pyCharUpper (c : Char) : Char :=
  if 97 ≤ c.toNat ∧ c.toNat ≤ 122 then Char.ofNat (c.toNat - 32) else c

/-- Model of the ASCII part of Python `str.lower` on one character. -/
def pyCharLower (c : Char) : Char :=
  if 65 ≤ c.toNat ∧ c.toNat ≤ 90 then Char.ofNat (c.toNat + 32) else c

/-- Python `str.upper` (ASCII segment). -/
def pyUpper (s : String) : String := ⟨s.data.map pyCharUpper⟩

/-- Python `str.lower` (ASCII segment). -/
def pyLower (s : String) : String := ⟨s.data.map pyCharLower⟩

/-- Drop leading whitespace from a character list. -/
def stripStart (l : List Char) : List Char := l.dropWhile Char.isWhitespace

/-- Drop trailing whitespace from a character list. -/
def stripEnd (l : List Char) : List Char :=
  (l.reverse.dropWhile Char.isWhitespace).reverse

/-- Python `str.strip` with no argument: remove leading and trailing
whitespace (modelled with Lean's whitespace predicate). -/
def pyStrip (s : String) : String := ⟨stripEnd (stripStart s.data)⟩

/-- Left-pad a character list with zeros up to width `w`. -/
def padZeros (w : Nat) (l : List Char) : List Char :=
  List.replicate (w - l.length) '0' ++ l

/-- Python `str.zfill w`: zero-pad on the left to width `w`, keeping a
leading sign character in front of the padding. -/
def pyZfill (w : Nat) (s : String) : String :=
  match s.data with
  | c :: rest =>
    if c = '+' ∨ c = '-' then ⟨c :: padZeros (w - 1) rest⟩ else ⟨padZeros w (c :: rest)⟩
  | [] => ⟨padZeros w []⟩

/-- Python slicing `s[:n]`. -/
def pyTake (n : Nat) (s : String) : String := ⟨s.data.take n⟩

/-! ## Cell values -/

/-- Fold a digit list into the natural number it denotes. -/
def digitsToNat (cs : List Char) : Nat :=
  cs.foldl (fun a c => 10 * a + (c.toNat - 48)) 0

/-- Model of Python float-literal parsing (as used by `pd.to_numeric`) on an
unsigned token: decimal digits with an optional decimal point
(scientific-notation forms are not modelled).  The value is exact. -/
def parseUnsigned (t : String) : Option ℚ :=
  let w := t.data.takeWhile (fun c => c != '.')
  match t.data.dropWhile (fun c => c != '.') with
  | [] => if w ≠ [] ∧ w.all Char.isDigit then some (digitsToNat w : ℚ) else none
  | _ :: f =>
    if f.all (fun c => c != '.') then
      if (w ≠ [] ∨ f ≠ []) ∧ w.all Char.isDigit ∧ f.all Char.isDigit then
        some ((digitsToNat w : ℚ) + (digitsToNat f : ℚ) / (10 : ℚ) ^ f.length)
      else none
    else none

/-- Model of `pd.to_numeric` string parsing: surrounding whitespace is
ignored, an optional leading sign is honoured.  Limitation of the
exact-rational value domain: real `pd.to_numeric` additionally accepts
the tokens "inf"/"Infinity" and overflows numerals beyond the IEEE
double range to a non-NA float infinity; infinities have no
representation here, so inputs deciding on them are outside this
model. -/
def parseRat (s : String) : Option ℚ :=
  match (pyStrip s).data with
  | '-' :: rest => (parseUnsigned ⟨rest⟩).map (fun q => -q)
  | '+' :: rest => parseUnsigned ⟨rest⟩
  | _ => parseUnsigned (pyStrip s)

/-- A calendar date, as held by a pandas `Timestamp` at midnight. -/
structure PyDate where
  year : Nat
  month : Nat
  day : Nat
deriving DecidableEq, Repr

def isLeapYear (y : Nat) : Bool :=
  y % 4 == 0 && (!(y % 100 == 0) || y % 400 == 0)

def daysInMonth (y m : Nat) : Nat :=
  if m = 2 then (if isLeapYear y then 29 else 28)
  else if m = 4 ∨ m = 6 ∨ m = 9 ∨ m = 11 then 30
  else 31

/-- Encode a date as `yyyymmdd` for lexicographic comparison. -/
def dateOrdinal (y m d : Nat) : Nat := y * 10000 + m * 100 + d

/-- Pandas `Timestamp` bounds for date-only values: `Timestamp.min` is
1677-09-21T00:12, so the earliest representable midnight is 1677-09-22;
`Timestamp.max` is 2262-04-11T23:47.  A date outside these bounds is
coerced to `NaT` by `pd.to_datetime(errors="coerce")`. -/
def tsInBounds (y m d : Nat) : Bool :=
  16770922 ≤ dateOrdinal y m d && dateOrdinal y m d ≤ 22620411

def validYMD (y m d : Nat) : Bool :=
  1 ≤ m && m ≤ 12 && 1 ≤ d && d ≤ daysInMonth y m

/-- Build a `Timestamp` date when the components form a real calendar date
inside the pandas range; otherwise `NaT` (`none`). -/
def mkTimestamp (y m d : Nat) : Option PyDate :=
  if validYMD y m d && tsInBounds y m d then some ⟨y, m, d⟩ else none

def digitVal (c : Char) : Option Nat :=
  if c.isDigit then some (c.toNat - 48) else none

/-- Model of `pd.to_datetime` string parsing, restricted to the ISO
`YYYY-MM-DD` layout the dataset uses; anything else coerces to `NaT`. -/
def parsePandasDate (s : String) : Option PyDate :=
  match (pyStrip s).data with
  | [y1, y2, y3, y4, '-', m1, m2, '-', d1, d2] =>
    match digitVal y1, digitVal y2, digitVal y3, digitVal y4,
          digitVal m1, digitVal m2, digitVal d1, digitVal d2 with
    | some a, some b, some c, some d, some e, some f, some g, some h =>
      mkTimestamp (a * 1000 + b * 100 + c * 10 + d) (e * 10 + f) (g * 10 + h)
    | _, _, _, _, _, _, _, _ => none
  | _ => none

/-- Dynamic value of one pandas cell. -/
inductive Cell where
  | null : Cell
  | num (q : ℚ) : Cell
  | str (s : String) : Cell
  | boolean (b : Bool) : Cell
  | date (d : PyDate) : Cell
deriving DecidableEq, Repr

/-- Missing-value test (`isna` / what `dropna` removes). -/
def isna (c : Cell) : Bool :=
  match c with
  | .null => true
  | _ => false

/-- Decimal numeral of an integer-valued cell; a non-integral rational is
rendered `num/den` (pandas would show a float numeral; either way the
result is never one of the recognized boolean tokens). -/
def numToStr (q : ℚ) : String :=
  toString q.num ++ (if q.den = 1 then "" else "/" ++ toString q.den)

def dateToStr (d : PyDate) : String :=
  pyZfill 4 (toString d.year) ++ "-" ++ pyZfill 2 (toString d.month) ++ "-" ++
    pyZfill 2 (toString d.day)

/-- Model of `astype(str)` on one cell.  pandas renders a missing value as
the literal string "nan". -/
def cellToStr (c : Cell) : String :=
  match c with
  | .null => "nan"
  | .num q => numToStr q
  | .str s => s
  | .boolean true => "True"
  | .boolean false => "False"
  | .date d => dateToStr d

/-- Model of `pd.to_numeric(errors="coerce")` on one cell.  Inherits the
exact-rational limitation of `parseRat`: the float infinities real
`pd.to_numeric` can yield (from "inf"/"Infinity" tokens or numeral
overflow) are not representable, so properties that turn on the
finiteness of a successfully coerced value are outside this model. -/
def toNumericVal (c : Cell) : Option ℚ :=
  match c with
  | .null => none
  | .num q => some q
  | .str s => parseRat s
  | .boolean b => some (if b then 1 else 0)
  | .date _ => none

/-- Coerced cell: the numeric value, or `NaN` when coercion fails. -/
def toNumCell (c : Cell) : Cell :=
  match toNumericVal c with
  | some q => .num q
  | none => .null

/-- Linear-interpolation quantile at q = 0.999, as
`Series.quantile(0.999)` computes it over the non-missing values
(`none` models the `NaN` result on an empty value set). -/
def quantile999 (vals : List ℚ) : Option ℚ :=
  match vals with
  | [] => none
  | _ :: _ =>
    let s := List.insertionSort (· ≤ ·) vals
    let n := s.length
    let pos : ℚ := ((n - 1 : ℕ) : ℚ) * (999 / 1000)
    let i : ℕ := (Int.floor pos).toNat
    let frac : ℚ := pos - Int.floor pos
    let lo := s.getD i 0
    let hi := s.getD (min (i + 1) (n - 1)) 0
    some (lo + frac * (hi - lo))

/-- One record of the table, one field per column the pipeline touches.
The raw file's `consolidated_latitude` / `consolidated_longitude` columns
are the `lat` / `lon` fields: `clean_location` renames them before any
other stage reads them, so the canonical names are used throughout. -/
structure Row where
  lat : Cell
  lon : Cell
  puissance_nominale : Cell
  nbre_pdc : Cell
  nom_operateur : Cell
  gratuit : Cell
  date_mise_en_service : Cell
  code_insee_commune : Cell
  nom_station : Cell
  categorie_puissance : Cell
  annee_mes : Cell
  code_departement : Cell
deriving DecidableEq, Repr

/-! ## Pipeline stages (`utils/prep.py`) -/

/-- Predicate of `df.dropna(subset=["lat", "lon"])`. -/
def locPresent (r : Row) : Bool := !isna r.lat && !isna r.lon

/-- Per-row coercion of `clean_location`:
`df["lat"] = pd.to_numeric(df["lat"], errors="coerce")` and likewise for
`lon`. -/
def locCoerce (r : Row) : Row :=
  { r with lat := toNumCell r.lat, lon := toNumCell r.lon }

/-- Model of `clean_location`: rename (implicit in the field names), drop
rows with a missing coordinate, coerce both coordinates to numbers, drop
again rows where coercion failed. -/
def clean_location (rows : List Row) : List Row :=
  (((rows.filter locPresent).map locCoerce).filter locPresent)

/-- Per-row coercion of `clean_numerical_data`: `pd.to_numeric` on
`puissance_nominale` and `nbre_pdc`. -/
def numCoerce (r : Row) : Row :=
  { r with
    puissance_nominale := toNumCell r.puissance_nominale,
    nbre_pdc := toNumCell r.nbre_pdc }

/-- Non-missing power values of the current table, the population
`Series.quantile` measures. -/
def powerVals (rows : List Row) : List ℚ :=
  rows.filterMap fun r =>
    match r.puissance_nominale with
    | .num q => some q
    | _ => none

/-- Row-retention predicate of the outlier filter
`(power <= p_999) | (power.isna())`; a comparison with the `NaN`
quantile (`none`) is false, as in pandas. -/
def numKeep (p : Option ℚ) (r : Row) : Bool :=
  (match r.puissance_nominale, p with
   | .num q, some pv => decide (q ≤ pv)
   | _, _ => false) || isna r.puissance_nominale

/-- Model of `clean_numerical_data`: coerce the two numeric columns, then
(unless the table is empty) keep the rows whose power is at most the
99.9th percentile of the non-missing powers, or missing. -/
def clean_numerical_data (rows : List Row) : List Row :=
  let rows2 := rows.map numCoerce
  if rows2.isEmpty then rows2
  else rows2.filter (numKeep (quantile999 (powerVals rows2)))

/-- Per-row transform of `clean_text_data`:
`fillna("Inconnu")` then `astype(str).str.strip().str.upper()`. -/
def textTransform (r : Row) : Row :=
  let filled := if isna r.nom_operateur then Cell.str "Inconnu" else r.nom_operateur
  { r with nom_operateur := .str (pyUpper (pyStrip (cellToStr filled))) }

/-- Model of `clean_text_data`. -/
def clean_text_data (rows : List Row) : List Row := rows.map textTransform

/-- The closed token map of `clean_categorical_data` (`Series.map`
returns `NaN`, i.e. `none`, on an unmapped key). -/
def gratuitMap (s : String) : Option String :=
  if s = "true" ∨ s = "1" ∨ s = "oui" then some "Oui"
  else if s = "false" ∨ s = "0" ∨ s = "non" then some "Non"
  else none

/-- Normalized key of `clean_categorical_data`:
`astype(str).str.strip().str.lower()` of the raw cell. -/
def gratuitToken (c : Cell) : String := pyLower (pyStrip (cellToStr c))

/-- Per-row transform of `clean_categorical_data`: the normalized key,
then the token map, then `fillna("Inconnu")`. -/
def catTransform (r : Row) : Row :=
  { r with gratuit := .str ((gratuitMap (gratuitToken r.gratuit)).getD "Inconnu") }

/-- Model of `clean_categorical_data`. -/
def clean_categorical_data (rows : List Row) : List Row := rows.map catTransform

/-- Model of `pd.to_datetime(errors="coerce")` on one cell: a string is
parsed as a date, an existing in-range date passes through, anything else
(including `NaN`) becomes `NaT`. -/
def toDatetimeCell (c : Cell) : Cell :=
  match c with
  | .str s =>
    match parsePandasDate s with
    | some d => .date d
    | none => .null
  | .date d => if validYMD d.year d.month d.day && tsInBounds d.year d.month d.day then .date d else .null
  | _ => .null

/-- Per-row transform of `clean_temporal_data`. -/
def tempTransform (r : Row) : Row :=
  { r with date_mise_en_service := toDatetimeCell r.date_mise_en_service }

/-- Model of `clean_temporal_data`. -/
def clean_temporal_data (rows : List Row) : List Row := rows.map tempTransform

/-- Model of `pd.cut(power, bins=[0, 11, 50, 150, inf], right=False)`
followed by `fillna("Inconnue")`: left-closed right-open bands, values
outside every band (below 0) and missing values both end as
"Inconnue". -/
def powerLabel (c : Cell) : Cell :=
  match c with
  | .num q =>
    if 0 ≤ q ∧ q < 11 then .str "Charge Lente (<11kW)"
    else if 11 ≤ q ∧ q < 50 then .str "Charge Accélérée (11-50kW)"
    else if 50 ≤ q ∧ q < 150 then .str "Charge Rapide (50-150kW)"
    else if 150 ≤ q then .str "Charge Ultra-Rapide (>150kW)"
    else .str "Inconnue"
  | _ => .str "Inconnue"

/-- Per-row transform of `feature_engineer_power`. -/
def powerTransform (r : Row) : Row :=
  { r with categorie_puissance := powerLabel r.puissance_nominale }

/-- Model of `feature_engineer_power`. -/
def feature_engineer_power (rows : List Row) : List Row := rows.map powerTransform

/-- Per-row transform of `feature_engineer_time`:
`dt.year.fillna(0).astype(int)` then `replace(0, pd.NA)`. -/
def timeTransform (r : Row) : Row :=
  let y : Int :=
    match r.date_mise_en_service with
    | .date d => (d.year : Int)
    | _ => 0
  { r with annee_mes := if y = 0 then Cell.null else Cell.num (y : ℚ) }

/-- Model of `feature_engineer_time`. -/
def feature_engineer_time (rows : List Row) : List Row := rows.map timeTransform

/-- Model of the Series accessor `col.str[:2]`: slices a string cell,
yields a missing value on a non-string cell. -/
def strSlice2 (c : Cell) : Cell :=
  match c with
  | .str s => .str (pyTake 2 s)
  | _ => .null

/-- Per-row transform of `feature_engineer_geo`:
`astype(str).str.zfill(5).str[:2]`, then the rows whose department code
is "20" get `code_insee_commune.str[:2]` instead. -/
def geoTransform (r : Row) : Row :=
  let cd := pyTake 2 (pyZfill 5 (cellToStr r.code_insee_commune))
  if cd = "20" then { r with code_departement := strSlice2 r.code_insee_commune }
  else { r with code_departement := .str cd }

/-- Model of `feature_engineer_geo`. -/
def feature_engineer_geo (rows : List Row) : List Row := rows.map geoTransform

/-- Model of `clean_data`: the full pipeline, in source order. -/
def clean_data (df : List Row) : List Row :=
  feature_engineer_geo
    (feature_engineer_time
      (feature_engineer_power
        (clean_temporal_data
          (clean_categorical_data
            (clean_text_data
              (clean_numerical_data
                (clean_location df)))))))

/-! ## Loader (`utils/io.py`) and the `app.py` empty guard -/

/-- Diagnostic shown by `st.error`; the two failure arms of
`load_and_clean_data` produce structurally distinct messages. -/
inductive Diag where
  | fileNotFound (path : String) : Diag
  | unexpected (msg : String) : Diag
deriving DecidableEq, Repr

/-- Outcome of `pd.read_csv` on a source identifier: a parsed table, a
missing file, or any other read failure. -/
inductive ReadOutcome where
  | ok (rows : List Row) : ReadOutcome
  | fileNotFound (path : String) : ReadOutcome
  | failure (msg : String) : ReadOutcome
deriving DecidableEq, Repr

/-- Model of `load_and_clean_data`: on a read failure of either kind the
exception is caught, a diagnostic is emitted and the empty table is
returned without invoking `clean_data`; otherwise the cleaned table is
returned with no diagnostic. -/
def load_and_clean_data (res : ReadOutcome) : List Row × Option Diag :=
  match res with
  | .ok rows => (clean_data rows, none)
  | .fileNotFound p => ([], some (.fileNotFound p))
  | .failure e => ([], some (.unexpected e))

/-- Model of the `app.py` guard `if data.empty: st.stop()`: downstream
consumers run only when the loaded table is non-empty. -/
def app_proceeds (data : List Row) : Bool := !data.isEmpty

/-! ## Sample records used by the concrete instantiations -/

/-- A record with every column missing. -/
def nullRow : Row :=
  ⟨.null, .null, .null, .null, .null, .null, .null, .null, .null, .null, .null, .null⟩

/-! ## Helper lemmas -/

theorem char_toNat_ofNat {n : Nat} (h : n < 55296) : (Char.ofNat n).toNat = n := by
  rw [Char.ofNat, dif_pos (Or.inl h)]
  rfl

theorem char_toNat_inj {a b : Char} (h : a.toNat = b.toNat) : a = b :=
  Char.ext (UInt32.ext h)

theorem pyCharUpper_toNat_of_lower {c : Char} (h : 97 ≤ c.toNat ∧ c.toNat ≤ 122) :
    (pyCharUpper c).toNat = c.toNat - 32 := by
  unfold pyCharUpper
  rw [if_pos h]
  exact char_toNat_ofNat (by omega)

theorem pyCharUpper_idem (c : Char) : pyCharUpper (pyCharUpper c) = pyCharUpper c := by
  by_cases h : 97 ≤ c.toNat ∧ c.toNat ≤ 122
  · have h2 : (pyCharUpper c).toNat = c.toNat - 32 := pyCharUpper_toNat_of_lower h
    have h3 : ¬(97 ≤ (pyCharUpper c).toNat ∧ (pyCharUpper c).toNat ≤ 122) := by omega
    rw [pyCharUpper, if_neg h3]
  · have e : pyCharUpper c = c := by
      unfold pyCharUpper
      rw [if_neg h]
    rw [e]
    exact e

theorem isWhitespace_iff_toNat (c : Char) :
    c.isWhitespace = true ↔ c.toNat = 32 ∨ c.toNat = 9 ∨ c.toNat = 13 ∨ c.toNat = 10 := by
  unfold Char.isWhitespace
  simp only [Bool.or_eq_true, decide_eq_true_eq]
  constructor
  · rintro (((h | h) | h) | h) <;> subst h <;> simp [Char.toNat]
  · rintro (h | h | h | h) <;>
      [exact Or.inl (Or.inl (Or.inl (char_toNat_inj h)));
       exact Or.inl (Or.inl (Or.inr (char_toNat_inj h)));
       exact Or.inl (Or.inr (char_toNat_inj h));
       exact Or.inr (char_toNat_inj h)]

theorem pyCharUpper_isWhitespace (c : Char) :
    (pyCharUpper c).isWhitespace = c.isWhitespace := by
  by_cases h : 97 ≤ c.toNat ∧ c.toNat ≤ 122
  · have h2 : (pyCharUpper c).toNat = c.toNat - 32 := pyCharUpper_toNat_of_lower h
    have hc : c.isWhitespace = false := by
      rw [Bool.eq_false_iff]
      intro hw
      rw [isWhitespace_iff_toNat] at hw
      omega
    have hu : (pyCharUpper c).isWhitespace = false := by
      rw [Bool.eq_false_iff]
      intro hw
      rw [isWhitespace_iff_toNat] at hw
      omega
    rw [hc, hu]
  · unfold pyCharUpper
    rw [if_neg h]

theorem isna_iff {c : Cell} : isna c = true ↔ c = Cell.null := by
  cases c <;> simp [isna]

theorem toNumCell_shape (c : Cell) : toNumCell c = Cell.null ∨ ∃ q, toNumCell c = Cell.num q := by
  unfold toNumCell
  cases toNumericVal c
  · exact Or.inl rfl
  · exact Or.inr ⟨_, rfl⟩

theorem quantile999_eq_none {vals : List ℚ} : quantile999 vals = none ↔ vals = [] := by
  cases vals <;> simp [quantile999]

theorem head?_dropWhile_false {p : α → Bool} {l : List α} {c : α}
    (h : (l.dropWhile p).head? = some c) : p c = false := by
  have h2 := List.head?_dropWhile_not p l
  rw [h] at h2
  exact h2

theorem getLast?_dropWhile {p : α → Bool} {l : List α}
    (h : l.dropWhile p ≠ []) : (l.dropWhile p).getLast? = l.getLast? := by
  obtain ⟨t, ht⟩ := List.dropWhile_suffix p (l := l)
  calc (l.dropWhile p).getLast? = (t ++ l.dropWhile p).getLast? :=
        (List.getLast?_append_of_ne_nil t h).symm
    _ = l.getLast? := by rw [ht]

theorem daysInMonth_le (y m : Nat) : daysInMonth y m ≤ 31 := by
  unfold daysInMonth
  split_ifs <;> simp

theorem mkTimestamp_year_bounds {y m d : Nat} {dt : PyDate}
    (h : mkTimestamp y m d = some dt) : 1677 ≤ dt.year ∧ dt.year ≤ 2262 := by
  unfold mkTimestamp at h
  split at h
  · next hc =>
    cases h
    simp only [Bool.and_eq_true, validYMD, tsInBounds, dateOrdinal, decide_eq_true_eq] at hc
    obtain ⟨⟨⟨⟨hm1, hm2⟩, hd1⟩, hd2⟩, hlo, hhi⟩ := hc
    have h31 : d ≤ 31 := le_trans hd2 (daysInMonth_le y m)
    refine ⟨?_, ?_⟩
    · show 1677 ≤ y
      omega
    · show y ≤ 2262
      omega
  · exact absurd h (by simp)

theorem parsePandasDate_year_bounds {s : String} {dt : PyDate}
    (h : parsePandasDate s = some dt) : 1677 ≤ dt.year ∧ dt.year ≤ 2262 := by
  unfold parsePandasDate at h
  split at h
  · split at h
    · exact mkTimestamp_year_bounds h
    · exact absurd h (by simp)
  · exact absurd h (by simp)

theorem tsInBounds_year {dt : PyDate}
    (hv : validYMD dt.year dt.month dt.day = true)
    (hb : tsInBounds dt.year dt.month dt.day = true) : 1677 ≤ dt.year := by
  simp only [Bool.and_eq_true, validYMD, decide_eq_true_eq] at hv
  simp only [Bool.and_eq_true, tsInBounds, dateOrdinal, decide_eq_true_eq] at hb
  obtain ⟨⟨⟨hm1, hm2⟩, hd1⟩, hd2⟩ := hv
  obtain ⟨hlo, hhi⟩ := hb
  have h31 : dt.day ≤ 31 := le_trans hd2 (daysInMonth_le dt.year dt.month)
  omega

theorem toDatetimeCell_year {c : Cell} {d : PyDate}
    (h : toDatetimeCell c = Cell.date d) : 1677 ≤ d.year := by
  cases c with
  | str s =>
    simp only [toDatetimeCell] at h
    split at h
    · next d0 hp =>
      cases h
      exact (parsePandasDate_year_bounds hp).1
    · exact absurd h (by simp)
  | date d0 =>
    simp only [toDatetimeCell] at h
    split at h
    · next hc =>
      cases h
      rw [Bool.and_eq_true] at hc
      exact tsInBounds_year hc.1 hc.2
    · exact absurd h (by simp)
  | null => exact absurd h (by simp [toDatetimeCell])
  | num q => exact absurd h (by simp [toDatetimeCell])
  | boolean b => exact absurd h (by simp [toDatetimeCell])

theorem powerLabel_is_str (c : Cell) : ∃ lbl, powerLabel c = Cell.str lbl := by
  cases c
  case num q =>
    dsimp only [powerLabel]
    split_ifs <;> exact ⟨_, rfl⟩
  all_goals exact ⟨_, rfl⟩

theorem stripped_upper_shape (x : String) :
    (∀ c, (pyUpper (pyStrip x)).data.head? = some c → c.isWhitespace = false) ∧
    (∀ c, (pyUpper (pyStrip x)).data.getLast? = some c → c.isWhitespace = false) ∧
    (∀ c ∈ (pyUpper (pyStrip x)).data, pyCharUpper c = c) := by
  have hdata : (pyUpper (pyStrip x)).data
      = (stripEnd (stripStart x.data)).map pyCharUpper := rfl
  refine ⟨?_, ?_, ?_⟩
  · intro c hc
    rw [hdata, List.head?_map] at hc
    cases hm : (stripEnd (stripStart x.data)).head? with
    | none => rw [hm] at hc; simp at hc
    | some c0 =>
      rw [hm] at hc
      rw [Option.map_some'] at hc
      cases hc
      rw [pyCharUpper_isWhitespace]
      -- head of `stripEnd l` equals head of `l` when `stripEnd l` is nonempty
      unfold stripEnd at hm
      rw [List.head?_eq_getLast?_reverse, List.reverse_reverse] at hm
      have hne : (stripStart x.data).reverse.dropWhile Char.isWhitespace ≠ [] := by
        intro hnil
        rw [hnil] at hm
        exact absurd hm (by simp)
      rw [getLast?_dropWhile hne, List.getLast?_reverse] at hm
      unfold stripStart at hm
      exact head?_dropWhile_false hm
  · intro c hc
    rw [hdata] at hc
    rw [List.getLast?_eq_head?_reverse, ← List.map_reverse, List.head?_map] at hc
    cases hm : (stripEnd (stripStart x.data)).reverse.head? with
    | none => rw [hm] at hc; simp at hc
    | some c0 =>
      rw [hm] at hc
      rw [Option.map_some'] at hc
      cases hc
      rw [pyCharUpper_isWhitespace]
      unfold stripEnd at hm
      rw [List.reverse_reverse] at hm
      exact head?_dropWhile_false hm
  · intro c hc
    rw [hdata] at hc
    obtain ⟨c0, _, rfl⟩ := List.mem_map.mp hc
    exact pyCharUpper_idem c0

/-! ## Claims -/

/-- Claim C2: after the boolean/categorical normalizer, `gratuit` carries
the "Oui" label exactly on the recognized truthy tokens of the lower-cased
trimmed string form, "Non" on the falsy tokens, and "Inconnu" on
everything else, missing values included; no fourth value appears. -/
theorem C2_gratuit_tristate (rows : List Row) (r : Row)
    (h : r ∈ clean_categorical_data rows) :
    ∃ r0, r0 ∈ rows ∧ r = catTransform r0 ∧
      ((gratuitToken r0.gratuit = "true" ∨ gratuitToken r0.gratuit = "1" ∨
          gratuitToken r0.gratuit = "oui") → r.gratuit = Cell.str "Oui") ∧
      ((gratuitToken r0.gratuit = "false" ∨ gratuitToken r0.gratuit = "0" ∨
          gratuitToken r0.gratuit = "non") → r.gratuit = Cell.str "Non") ∧
      (¬(gratuitToken r0.gratuit = "true" ∨ gratuitToken r0.gratuit = "1" ∨
          gratuitToken r0.gratuit = "oui") →
        ¬(gratuitToken r0.gratuit = "false" ∨ gratuitToken r0.gratuit = "0" ∨
          gratuitToken r0.gratuit = "non") → r.gratuit = Cell.str "Inconnu") ∧
      (r0.gratuit = Cell.null → r.gratuit = Cell.str "Inconnu") ∧
      (r.gratuit = Cell.str "Oui" ∨ r.gratuit = Cell.str "Non" ∨
        r.gratuit = Cell.str "Inconnu") := by
  obtain ⟨r0, hr0, rfl⟩ := List.mem_map.mp h
  have hg : (catTransform r0).gratuit
      = Cell.str ((gratuitMap (gratuitToken r0.gratuit)).getD "Inconnu") := rfl
  refine ⟨r0, hr0, rfl, ?_, ?_, ?_, ?_, ?_⟩
  · intro hy
    rw [hg]
    unfold gratuitMap
    rw [if_pos hy]
    rfl
  · intro hno
    have hny : ¬(gratuitToken r0.gratuit = "true" ∨ gratuitToken r0.gratuit = "1" ∨
        gratuitToken r0.gratuit = "oui") := by
      rcases hno with h | h | h <;> rw [h] <;> decide
    rw [hg]
    unfold gratuitMap
    rw [if_neg hny, if_pos hno]
    rfl
  · intro h1 h2
    rw [hg]
    unfold gratuitMap
    rw [if_neg h1, if_neg h2]
    rfl
  · intro hnull
    rw [hg, hnull]
    decide
  · rw [hg]
    unfold gratuitMap
    split_ifs
    · exact Or.inl rfl
    · exact Or.inr (Or.inl rfl)
    · exact Or.inr (Or.inr rfl)

/-- Concrete instantiation of C2 at a one-row table holding a native
boolean. -/
theorem C2_witness :
    ∃ r0, r0 ∈ [{ nullRow with gratuit := Cell.boolean true }] ∧
      catTransform { nullRow with gratuit := Cell.boolean true } = catTransform r0 ∧
      ((gratuitToken r0.gratuit = "true" ∨ gratuitToken r0.gratuit = "1" ∨
          gratuitToken r0.gratuit = "oui") →
        (catTransform { nullRow with gratuit := Cell.boolean true }).gratuit = Cell.str "Oui") ∧
      ((gratuitToken r0.gratuit = "false" ∨ gratuitToken r0.gratuit = "0" ∨
          gratuitToken r0.gratuit = "non") →
        (catTransform { nullRow with gratuit := Cell.boolean true }).gratuit = Cell.str "Non") ∧
      (¬(gratuitToken r0.gratuit = "true" ∨ gratuitToken r0.gratuit = "1" ∨
          gratuitToken r0.gratuit = "oui") →
        ¬(gratuitToken r0.gratuit = "false" ∨ gratuitToken r0.gratuit = "0" ∨
          gratuitToken r0.gratuit = "non") →
        (catTransform { nullRow with gratuit := Cell.boolean true }).gratuit
          = Cell.str "Inconnu") ∧
      (r0.gratuit = Cell.null →
        (catTransform { nullRow with gratuit := Cell.boolean true }).gratuit
          = Cell.str "Inconnu") ∧
      ((catTransform { nullRow with gratuit := Cell.boolean true }).gratuit = Cell.str "Oui" ∨
        (catTransform { nullRow with gratuit := Cell.boolean true }).gratuit = Cell.str "Non" ∨
        (catTransform { nullRow with gratuit := Cell.boolean true }).gratuit
          = Cell.str "Inconnu") :=
  C2_gratuit_tristate [{ nullRow with gratuit := Cell.boolean true }]
    (catTransform { nullRow with gratuit := Cell.boolean true }) (by decide)

/-- Claim C5: the power-bucket feature engineer assigns
`categorie_puissance` from the four left-closed right-open bands
`[0,11)`, `[11,50)`, `[50,150)`, `[150,inf)` (each boundary value falls in
the higher band), a missing power gets the "Inconnue" label, and every
output record gets some label. -/
theorem C5_power_buckets (rows : List Row) (r : Row)
    (h : r ∈ feature_engineer_power rows) :
    ∃ r0, r0 ∈ rows ∧ r = powerTransform r0 ∧
      (r0.puissance_nominale = Cell.null →
        r.categorie_puissance = Cell.str "Inconnue") ∧
      (∀ q : ℚ, r0.puissance_nominale = Cell.num q →
        ((0 ≤ q ∧ q < 11) →
          r.categorie_puissance = Cell.str "Charge Lente (<11kW)") ∧
        ((11 ≤ q ∧ q < 50) →
          r.categorie_puissance = Cell.str "Charge Accélérée (11-50kW)") ∧
        ((50 ≤ q ∧ q < 150) →
          r.categorie_puissance = Cell.str "Charge Rapide (50-150kW)") ∧
        (150 ≤ q →
          r.categorie_puissance = Cell.str "Charge Ultra-Rapide (>150kW)")) ∧
      ∃ lbl, r.categorie_puissance = Cell.str lbl := by
  obtain ⟨r0, hr0, rfl⟩ := List.mem_map.mp h
  have hc : (powerTransform r0).categorie_puissance
      = powerLabel r0.puissance_nominale := rfl
  refine ⟨r0, hr0, rfl, ?_, ?_, ?_⟩
  · intro hnull
    rw [hc, hnull]
    rfl
  · intro q hq
    rw [hc, hq]
    dsimp only [powerLabel]
    refine ⟨?_, ?_, ?_, ?_⟩ <;> intro hr
    · rw [if_pos hr]
    · have h1 : ¬(0 ≤ q ∧ q < 11) := by
        rintro ⟨_, hx⟩
        linarith [hr.1]
      rw [if_neg h1, if_pos hr]
    · have h1 : ¬(0 ≤ q ∧ q < 11) := by
        rintro ⟨_, hx⟩
        linarith [hr.1]
      have h2 : ¬(11 ≤ q ∧ q < 50) := by
        rintro ⟨_, hx⟩
        linarith [hr.1]
      rw [if_neg h1, if_neg h2, if_pos hr]
    · have h1 : ¬(0 ≤ q ∧ q < 11) := by
        rintro ⟨_, hx⟩
        linarith
      have h2 : ¬(11 ≤ q ∧ q < 50) := by
        rintro ⟨_, hx⟩
        linarith
      have h3 : ¬(50 ≤ q ∧ q < 150) := by
        rintro ⟨_, hx⟩
        linarith
      rw [if_neg h1, if_neg h2, if_neg h3, if_pos hr]
  · rw [hc]
    exact powerLabel_is_str _

/-- Concrete instantiation of C5 at the boundary value 11. -/
theorem C5_witness :
    ∃ r0, r0 ∈ [{ nullRow with puissance_nominale := Cell.num 11 }] ∧
      powerTransform { nullRow with puissance_nominale := Cell.num 11 } = powerTransform r0 ∧
      (r0.puissance_nominale = Cell.null →
        (powerTransform { nullRow with puissance_nominale := Cell.num 11 }).categorie_puissance
          = Cell.str "Inconnue") ∧
      (∀ q : ℚ, r0.puissance_nominale = Cell.num q →
        ((0 ≤ q ∧ q < 11) →
          (powerTransform { nullRow with puissance_nominale := Cell.num 11 }).categorie_puissance
            = Cell.str "Charge Lente (<11kW)") ∧
        ((11 ≤ q ∧ q < 50) →
          (powerTransform { nullRow with puissance_nominale := Cell.num 11 }).categorie_puissance
            = Cell.str "Charge Accélérée (11-50kW)") ∧
        ((50 ≤ q ∧ q < 150) →
          (powerTransform { nullRow with puissance_nominale := Cell.num 11 }).categorie_puissance
            = Cell.str "Charge Rapide (50-150kW)") ∧
        (150 ≤ q →
          (powerTransform { nullRow with puissance_nominale := Cell.num 11 }).categorie_puissance
            = Cell.str "Charge Ultra-Rapide (>150kW)")) ∧
      ∃ lbl, (powerTransform { nullRow with puissance_nominale := Cell.num 11 }).categorie_puissance
          = Cell.str lbl :=
  C5_power_buckets [{ nullRow with puissance_nominale := Cell.num 11 }]
    (powerTransform { nullRow with puissance_nominale := Cell.num 11 }) (by decide)

/-- Claim C9: after the text normalizer, `nom_operateur` is a string with
no leading or trailing whitespace, fixed by upper-casing; a missing
operator name turns into the upper-cased sentinel "INCONNU" instead of
staying missing. -/
theorem C9_operator_normalized (rows : List Row) (r : Row)
    (h : r ∈ clean_text_data rows) :
    ∃ r0, r0 ∈ rows ∧ r = textTransform r0 ∧
      (r0.nom_operateur = Cell.null → r.nom_operateur = Cell.str "INCONNU") ∧
      ∃ s : String, r.nom_operateur = Cell.str s ∧
        (∀ c, s.data.head? = some c → c.isWhitespace = false) ∧
        (∀ c, s.data.getLast? = some c → c.isWhitespace = false) ∧
        ∀ c ∈ s.data, pyCharUpper c = c := by
  obtain ⟨r0, hr0, rfl⟩ := List.mem_map.mp h
  refine ⟨r0, hr0, rfl, ?_, ?_⟩
  · intro hnull
    show Cell.str (pyUpper (pyStrip (cellToStr
        (if isna r0.nom_operateur then Cell.str "Inconnu" else r0.nom_operateur))))
      = Cell.str "INCONNU"
    rw [hnull]
    decide
  · exact ⟨_, rfl, stripped_upper_shape _⟩

/-- Concrete instantiation of C9 at a one-row table with a missing
operator name. -/
theorem C9_witness :
    ∃ r0, r0 ∈ [nullRow] ∧ textTransform nullRow = textTransform r0 ∧
      (r0.nom_operateur = Cell.null →
        (textTransform nullRow).nom_operateur = Cell.str "INCONNU") ∧
      ∃ s : String, (textTransform nullRow).nom_operateur = Cell.str s ∧
        (∀ c, s.data.head? = some c → c.isWhitespace = false) ∧
        (∀ c, s.data.getLast? = some c → c.isWhitespace = false) ∧
        ∀ c ∈ s.data, pyCharUpper c = c :=
  C9_operator_normalized [nullRow] (textTransform nullRow) (by decide)

theorem timeTransform_annee_null {r : Row} (h : r.date_mise_en_service = Cell.null) :
    (timeTransform r).annee_mes = Cell.null := by
  dsimp only [timeTransform]
  rw [h]
  rfl

theorem timeTransform_annee_date {r : Row} {d : PyDate}
    (h : r.date_mise_en_service = Cell.date d) (hy : (d.year : Int) ≠ 0) :
    (timeTransform r).annee_mes = Cell.num ((d.year : Int) : ℚ) := by
  dsimp only [timeTransform]
  rw [h]
  dsimp only
  rw [if_neg hy]

/-- Claim C6: after the temporal normalizer, the year-extraction feature
engineer maps a missing `date_mise_en_service` to a missing `annee_mes`
(not zero), and a present date to its calendar year; the intermediate
`fillna(0).astype(int).replace(0, NA)` encoding cannot clobber a real
year because every pandas-representable date has year at least 1677. -/
theorem C6_year_extraction (rows : List Row) (r : Row)
    (h : r ∈ feature_engineer_time (clean_temporal_data rows)) :
    (r.date_mise_en_service = Cell.null → r.annee_mes = Cell.null) ∧
    ∀ d, r.date_mise_en_service = Cell.date d →
      r.annee_mes = Cell.num (d.year : ℚ) := by
  obtain ⟨r1, hr1, rfl⟩ := List.mem_map.mp h
  obtain ⟨r0, _, rfl⟩ := List.mem_map.mp hr1
  have hdate : (timeTransform (tempTransform r0)).date_mise_en_service
      = (tempTransform r0).date_mise_en_service := rfl
  constructor
  · intro hnull
    rw [hdate] at hnull
    exact timeTransform_annee_null hnull
  · intro d hd
    rw [hdate] at hd
    have hy : 1677 ≤ d.year := by
      have : (tempTransform r0).date_mise_en_service
          = toDatetimeCell r0.date_mise_en_service := rfl
      rw [this] at hd
      exact toDatetimeCell_year hd
    have := timeTransform_annee_date hd (by omega)
    rw [this]
    norm_cast

/-- Concrete instantiation of C6 at a parsed ISO date. -/
theorem C6_witness :
    ((timeTransform (tempTransform
        { nullRow with date_mise_en_service := Cell.str "2021-05-03" })).date_mise_en_service
        = Cell.null →
      (timeTransform (tempTransform
        { nullRow with date_mise_en_service := Cell.str "2021-05-03" })).annee_mes
        = Cell.null) ∧
    ∀ d, (timeTransform (tempTransform
        { nullRow with date_mise_en_service := Cell.str "2021-05-03" })).date_mise_en_service
        = Cell.date d →
      (timeTransform (tempTransform
        { nullRow with date_mise_en_service := Cell.str "2021-05-03" })).annee_mes
        = Cell.num (d.year : ℚ) :=
  C6_year_extraction [{ nullRow with date_mise_en_service := Cell.str "2021-05-03" }]
    (timeTransform (tempTransform
      { nullRow with date_mise_en_service := Cell.str "2021-05-03" })) (by decide)

/-- Claim C7: the loader maps every read outcome to either a cleaned
table or the empty-table sentinel; both failure kinds are caught, yield
the empty table with structurally distinct diagnostics, and the `app.py`
guard halts downstream processing on the empty result. -/
theorem C7_loader_boundary (res : ReadOutcome) :
    (∀ rows, res = ReadOutcome.ok rows →
      load_and_clean_data res = (clean_data rows, none)) ∧
    (∀ p, res = ReadOutcome.fileNotFound p →
      load_and_clean_data res = ([], some (Diag.fileNotFound p)) ∧
        app_proceeds (load_and_clean_data res).1 = false) ∧
    (∀ e, res = ReadOutcome.failure e →
      load_and_clean_data res = ([], some (Diag.unexpected e)) ∧
        app_proceeds (load_and_clean_data res).1 = false) ∧
    ∀ p e, Diag.fileNotFound p ≠ Diag.unexpected e := by
  refine ⟨?_, ?_, ?_, ?_⟩
  · rintro rows rfl
    rfl
  · rintro p rfl
    exact ⟨rfl, rfl⟩
  · rintro e rfl
    exact ⟨rfl, rfl⟩
  · intro p e hcontra
    cases hcontra

/-- Concrete instantiation of C7 at a missing-file outcome. -/
theorem C7_witness :
    load_and_clean_data (ReadOutcome.fileNotFound "irve.csv")
      = ([], some (Diag.fileNotFound "irve.csv")) ∧
    app_proceeds (load_and_clean_data (ReadOutcome.fileNotFound "irve.csv")).1 = false :=
  (C7_loader_boundary (ReadOutcome.fileNotFound "irve.csv")).2.1 "irve.csv" rfl

/-- Claim C8: the cleaning pipeline is a pure function of the raw table:
two runs on equal inputs produce equal (bit-identical, in the model)
output tables. -/
theorem C8_deterministic (df1 df2 : List Row) (h : df1 = df2) :
    clean_data df1 = clean_data df2 :=
  congrArg clean_data h

/-- Concrete instantiation of C8. -/
theorem C8_witness :
    clean_data [{ nullRow with lat := Cell.num 48, lon := Cell.num 2 }]
      = clean_data [{ nullRow with lat := Cell.num 48, lon := Cell.num 2 }] :=
  C8_deterministic [{ nullRow with lat := Cell.num 48, lon := Cell.num 2 }]
    [{ nullRow with lat := Cell.num 48, lon := Cell.num 2 }] rfl

/-- Counterexample to claim C3 as stated: the commune code "20000" has
zero-padded prefix "20", yet the recomputed department code is "20",
neither "2A" nor "2B". -/
theorem C3_counterexample :
    pyTake 2 (pyZfill 5 (cellToStr (Cell.str "20000"))) = "20" ∧
    (feature_engineer_geo [{ nullRow with code_insee_commune := Cell.str "20000" }]).map
        (fun r => r.code_departement) = [Cell.str "20"] ∧
    Cell.str "20" ≠ Cell.str "2A" ∧ Cell.str "20" ≠ Cell.str "2B" := by
  decide

/-- Claim C3 (amended): `code_departement` is the first 2 characters of
the commune code zero-padded to 5 characters, except that when that
prefix is "20" it is recomputed by the `.str[:2]` accessor on the
original unpadded commune code — which yields "2A"/"2B" for Corsican
string codes, but can also yield "20" (or a missing value on a
non-string cell). -/
theorem C3_department_code (rows : List Row) (r : Row)
    (h : r ∈ feature_engineer_geo rows) :
    ∃ r0, r0 ∈ rows ∧ r = geoTransform r0 ∧
      (pyTake 2 (pyZfill 5 (cellToStr r0.code_insee_commune)) ≠ "20" →
        r.code_departement
          = Cell.str (pyTake 2 (pyZfill 5 (cellToStr r0.code_insee_commune)))) ∧
      (pyTake 2 (pyZfill 5 (cellToStr r0.code_insee_commune)) = "20" →
        r.code_departement = strSlice2 r0.code_insee_commune) := by
  obtain ⟨r0, hr0, rfl⟩ := List.mem_map.mp h
  refine ⟨r0, hr0, rfl, ?_, ?_⟩
  · intro hne
    dsimp only [geoTransform]
    rw [if_neg hne]
  · intro heq
    dsimp only [geoTransform]
    rw [if_pos heq]

/-- Concrete instantiation of the amended C3 at a Corsican commune
code. -/
theorem C3_witness :
    ∃ r0, r0 ∈ [{ nullRow with code_insee_commune := Cell.str "2A004" }] ∧
      geoTransform { nullRow with code_insee_commune := Cell.str "2A004" } = geoTransform r0 ∧
      (pyTake 2 (pyZfill 5 (cellToStr r0.code_insee_commune)) ≠ "20" →
        (geoTransform { nullRow with code_insee_commune := Cell.str "2A004" }).code_departement
          = Cell.str (pyTake 2 (pyZfill 5 (cellToStr r0.code_insee_commune)))) ∧
      (pyTake 2 (pyZfill 5 (cellToStr r0.code_insee_commune)) = "20" →
        (geoTransform { nullRow with code_insee_commune := Cell.str "2A004" }).code_departement
          = strSlice2 r0.code_insee_commune) :=
  C3_department_code [{ nullRow with code_insee_commune := Cell.str "2A004" }]
    (geoTransform { nullRow with code_insee_commune := Cell.str "2A004" }) (by decide)

theorem numKeep_null {p : Option ℚ} {r : Row} (hr : r.puissance_nominale = Cell.null) :
    numKeep p r = true := by
  unfold numKeep
  rw [hr]
  cases p <;> rfl

theorem numKeep_some_num {q p : ℚ} {r : Row} (hr : r.puissance_nominale = Cell.num q) :
    (numKeep (some p) r = true) ↔ q ≤ p := by
  unfold numKeep
  rw [hr]
  simp [isna]

theorem numKeep_none_eq (r : Row) : numKeep none r = isna r.puissance_nominale := by
  unfold numKeep
  cases hp : r.puissance_nominale <;> rfl

theorem numCoerce_shape (x : Row) (hx : x ∈ List.map numCoerce rows) :
    x.puissance_nominale = Cell.null ∨ ∃ q, x.puissance_nominale = Cell.num q := by
  obtain ⟨x0, _, rfl⟩ := List.mem_map.mp hx
  have hp : (numCoerce x0).puissance_nominale = toNumCell x0.puissance_nominale := rfl
  rw [hp]
  rcases toNumCell_shape x0.puissance_nominale with h | ⟨q, h⟩
  · exact Or.inl h
  · exact Or.inr ⟨q, h⟩

/-- Claim C1: the numeric normalizer retains exactly the coerced records
whose power is missing or at most the 99.9th percentile of the
non-missing coerced powers of the pre-exclusion table; when that
population is empty, no record is excluded. -/
theorem C1_outlier_policy (rows : List Row) (r : Row) :
    (r ∈ clean_numerical_data rows ↔
      r ∈ rows.map numCoerce ∧
        (r.puissance_nominale = Cell.null ∨
          ∃ q p, r.puissance_nominale = Cell.num q ∧
            quantile999 (powerVals (rows.map numCoerce)) = some p ∧ q ≤ p)) ∧
    (powerVals (rows.map numCoerce) = [] →
      clean_numerical_data rows = rows.map numCoerce) := by
  by_cases hemp : (rows.map numCoerce).isEmpty
  · have hcd : clean_numerical_data rows = rows.map numCoerce := by
      show (if (rows.map numCoerce).isEmpty then rows.map numCoerce
        else (rows.map numCoerce).filter
          (numKeep (quantile999 (powerVals (rows.map numCoerce))))) = rows.map numCoerce
      rw [if_pos hemp]
    have hnil : rows.map numCoerce = [] := List.isEmpty_iff.mp hemp
    refine ⟨?_, fun _ => hcd⟩
    rw [hcd, hnil]
    simp
  · have hcd : clean_numerical_data rows
        = (rows.map numCoerce).filter
            (numKeep (quantile999 (powerVals (rows.map numCoerce)))) := by
      show (if (rows.map numCoerce).isEmpty then rows.map numCoerce
        else (rows.map numCoerce).filter
          (numKeep (quantile999 (powerVals (rows.map numCoerce))))) = _
      rw [if_neg hemp]
    cases hq : quantile999 (powerVals (rows.map numCoerce)) with
    | some p =>
      refine ⟨?_, ?_⟩
      · rw [hcd, hq, List.mem_filter]
        constructor
        · rintro ⟨hmem, hkeep⟩
          refine ⟨hmem, ?_⟩
          rcases numCoerce_shape r hmem with hnull | ⟨q, hnum⟩
          · exact Or.inl hnull
          · exact Or.inr ⟨q, p, hnum, rfl, (numKeep_some_num hnum).mp hkeep⟩
        · rintro ⟨hmem, hnull | ⟨q, p2, hnum, hp2, hle⟩⟩
          · exact ⟨hmem, numKeep_null hnull⟩
          · cases hp2
            exact ⟨hmem, (numKeep_some_num hnum).mpr hle⟩
      · intro hpv
        rw [hpv] at hq
        exact absurd hq (by simp [quantile999])
    | none =>
      have hpv : powerVals (rows.map numCoerce) = [] := quantile999_eq_none.mp hq
      have hkeepall : ∀ x ∈ rows.map numCoerce,
          numKeep (quantile999 (powerVals (rows.map numCoerce))) x = true := by
        intro x hx
        rcases numCoerce_shape x hx with hnull | ⟨q, hnum⟩
        · exact numKeep_null hnull
        · have := List.filterMap_eq_nil_iff.mp hpv x hx
          rw [hnum] at this
          exact absurd this (by simp)
      have hall : clean_numerical_data rows = rows.map numCoerce := by
        rw [hcd]
        exact List.filter_eq_self.mpr hkeepall
      refine ⟨?_, fun _ => hall⟩
      rw [hall]
      constructor
      · intro hmem
        refine ⟨hmem, ?_⟩
        rcases numCoerce_shape r hmem with hnull | ⟨q, hnum⟩
        · exact Or.inl hnull
        · have := List.filterMap_eq_nil_iff.mp hpv r hmem
          rw [hnum] at this
          exact absurd this (by simp)
      · rintro ⟨hmem, _⟩
        exact hmem

/-- Concrete instantiation of C1: with powers 10 and 20 the 99.9th
percentile is 19.99, so the coerced power-10 record is retained. -/
theorem C1_witness :
    numCoerce { nullRow with puissance_nominale := Cell.num 10 } ∈
      clean_numerical_data [{ nullRow with puissance_nominale := Cell.num 10 },
        { nullRow with puissance_nominale := Cell.num 20 }, nullRow] :=
  (C1_outlier_policy [{ nullRow with puissance_nominale := Cell.num 10 },
      { nullRow with puissance_nominale := Cell.num 20 }, nullRow]
    (numCoerce { nullRow with puissance_nominale := Cell.num 10 })).1.mpr
    ⟨by decide, Or.inr ⟨10, 1999/100, by decide, by with_unfolding_all rfl, by norm_num⟩⟩

theorem clean_numerical_data_sublist (l : List Row) :
    List.Sublist (clean_numerical_data l) (l.map numCoerce) := by
  show List.Sublist (if (l.map numCoerce).isEmpty then l.map numCoerce
    else (l.map numCoerce).filter
      (numKeep (quantile999 (powerVals (l.map numCoerce))))) (l.map numCoerce)
  split
  · exact List.Sublist.refl _
  · exact List.filter_sublist _

/-- Claim C10: every stage only drops records or rewrites column values
per record, so the output of `clean_data` is an order-preserving
subsequence of the per-record rewrites of the input rows: no stage
inserts, duplicates, or reorders records. -/
theorem C10_order_preserving (rows : List Row) :
    List.Sublist (clean_data rows)
      (rows.map (fun r =>
        geoTransform (timeTransform (powerTransform (tempTransform (catTransform
          (textTransform (numCoerce (locCoerce r))))))))) := by
  have h1 : List.Sublist (clean_location rows) (rows.map locCoerce) := by
    unfold clean_location
    exact (List.filter_sublist _).trans ((List.filter_sublist _).map locCoerce)
  have h2 := clean_numerical_data_sublist (clean_location rows)
  have h3 : List.Sublist (clean_numerical_data (clean_location rows))
      (rows.map (fun r => numCoerce (locCoerce r))) := by
    have h := h2.trans (h1.map numCoerce)
    simpa [List.map_map, Function.comp] using h
  have h4 := ((((h3.map textTransform).map catTransform).map tempTransform).map
    powerTransform).map timeTransform
  have h5 := h4.map geoTransform
  unfold clean_data clean_text_data clean_categorical_data clean_temporal_data
    feature_engineer_power feature_engineer_time feature_engineer_geo
  simpa [List.map_map, Function.comp] using h5
